import Mathlib

/-!
Verification development for the NoteBook PDF-chat backend
(src/Backend/fastapi_app.py).

The backend keeps three in-memory maps (`documents`, `multi_chat_histories`,
`merged_vector_stores`), a persisted embeddings directory, an uploads
directory and a SQLite metadata table.  We embed that state as explicit
association lists and the endpoint handlers as pure state-passing
functions.  External collaborators (the FAISS similarity retriever, the
chat completion model, the PDF text extractor, the text splitter and the
uuid generator) are passed in as function parameters.

Python string primitives used by the backend (`sorted`, `str.lower`,
`str.endswith`, slicing) are modelled by executable Lean functions over
the character list of a `String`, matching Python's code-point ordering.
-/

/-- Lexicographic code-point comparison of character lists; this is the
ordering Python uses to `sorted` a collection of strings. -/
def charListLe : List Char → List Char → Bool
  | [], _ => true
  | _ :: _, [] => false
  | a :: as, b :: bs => if a = b then charListLe as bs else decide (a < b)

/-- Python string comparison (used by `sorted`): code-point lexicographic. -/
def strLe (a b : String) : Bool := charListLe a.data b.data

/-- `strLe` as a relation, the sort order for canonical session keys. -/
def strLeR (a b : String) : Prop := strLe a b = true

instance : DecidableRel strLeR := fun a b => inferInstanceAs (Decidable (strLe a b = true))

/-- Python `str.lower`. -/
def strToLower (s : String) : String := ⟨s.data.map Char.toLower⟩

/-- Python `str.endswith`. -/
def strEndsWith (s suf : String) : Bool := List.isSuffixOf suf.data s.data

/-- Python string slicing `s[:n]`. -/
def strTake (s : String) (n : Nat) : String := ⟨s.data.take n⟩

/-! ### Association lists (the in-memory dicts, the embeddings directory,
the uploads directory and the SQLite table are all keyed maps) -/

/-- Dictionary lookup (`k in d` / `d.get(k)` / `d[k]`). -/
def alookup {α β : Type} [DecidableEq α] (k : α) : List (α × β) → Option β
  | [] => none
  | p :: rest => if p.1 = k then some p.2 else alookup k rest

/-- Dictionary assignment `d[k] = v`. -/
def ainsert {α β : Type} [DecidableEq α] (k : α) (v : β) : List (α × β) → List (α × β)
  | [] => [(k, v)]
  | p :: rest => if p.1 = k then (k, v) :: rest else p :: ainsert k v rest

/-- Removal of a key (`shutil.rmtree` on the per-id directory, `DELETE ... WHERE`). -/
def aerase {α β : Type} [DecidableEq α] (k : α) (m : List (α × β)) : List (α × β) :=
  m.filter (fun p => decide (p.1 ≠ k))

/-! ### Canonical session keys
`document_ids = tuple(sorted(set(request.document_ids)))` -/

/-- Canonical session key: the deduplicated, ascending-sorted list of
document ids, as computed at the top of the query endpoint. -/
def canonicalKey (ids : List String) : List String :=
  List.insertionSort strLeR ids.dedup

/-! ### Data model -/

/-- A FAISS vector store, abstracted to its queryable content: the list of
text chunks it indexes, in docstore order. -/
structure VectorStore where
  chunks : List String
deriving DecidableEq

/-- Destructive `base_vs.merge_from(other_vs)`: the receiving store absorbs
the other store's chunks. -/
def VectorStore.merge_from (a b : VectorStore) : VectorStore :=
  { chunks := a.chunks ++ b.chunks }

/-- An entry of the in-memory `documents` dict:
`{"vector_store": vs, "chat_history": []}`. -/
structure DocEntry where
  vector_store : VectorStore
  chat_history : List (String × String)
deriving DecidableEq

/-- Error outcome of a request handler. -/
inductive Err where
  /-- `raise HTTPException(status_code=..., detail=...)`. -/
  | httpError (status : Nat) (detail : String)
  /-- an exception that is not an HTTPException escapes the handler
  (FAISS deserialization failure, IndexError, sqlite IntegrityError). -/
  | uncaught (detail : String)
deriving DecidableEq

/-- Response of the query endpoint. -/
structure QueryResponse where
  answer : String
  sources : List String
deriving DecidableEq

/-- One response entry of the upload endpoint. -/
structure PdfUploadResponse where
  document_id : String
  message : String
deriving DecidableEq

/-- An uploaded file: its client-supplied name and raw content. -/
structure UploadFileInput where
  filename : String
  content : String
deriving DecidableEq

/-- The mutable state of the backend process: the three module-level dicts,
the two on-disk directories, the SQLite metadata table and the list of
background tasks scheduled so far. -/
structure ServerState where
  documents : List (String × DocEntry)
  multi_chat_histories : List (List String × List (String × String))
  merged_vector_stores : List (List String × VectorStore)
  embeddingsDisk : List (String × VectorStore)
  uploadsDisk : List (String × String)
  pdf_metadata : List (String × String × String × Nat)
  scheduled : List (String × String)
deriving DecidableEq

deriving instance DecidableEq for Except

/-! ### Operations -/

/-- `load_vector_store`: memory first, then disk (installing the loaded
store into `documents`), else HTTP 404. -/
def load_vector_store (document_id : String) (s : ServerState) :
    Except Err (VectorStore × ServerState) :=
  match alookup document_id s.documents with
  | some doc => .ok (doc.vector_store, s)
  | none =>
    match alookup document_id s.embeddingsDisk with
    | none => .error (Err.httpError 404 "Document not found")
    | some vs =>
      .ok (vs, { s with
        documents := ainsert document_id { vector_store := vs, chat_history := [] } s.documents })

/-- The comprehension
`[FAISS.load_local(f"embeddings/{doc_id}", ...) for doc_id in document_ids]`:
each member is deserialized fresh from persisted storage; a member without
persisted files makes the loader raise an exception that is not an
HTTPException. -/
def loadAllFromDisk (ids : List String) (disk : List (String × VectorStore)) :
    Except Err (List VectorStore) :=
  match ids with
  | [] => .ok []
  | id :: rest =>
    match alookup id disk with
    | none => .error (Err.uncaught ("FAISS.load_local failed: embeddings/" ++ id ++ " does not exist"))
    | some vs =>
      match loadAllFromDisk rest disk with
      | .error e => .error e
      | .ok vss => .ok (vs :: vss)

/-- The else-branch of the index resolution (lines 238-252): consult the
merged-session cache; on a miss reload every member fresh from disk, fold
the destructive merge over them in key order (`base_vs = vector_stores[0]`
is unguarded, so an empty key raises an IndexError), and cache the result
under the key. -/
def resolveMulti (key : List String) (s : ServerState) :
    Except Err (VectorStore × ServerState) :=
  match alookup key s.merged_vector_stores with
  | some vs => .ok (vs, s)
  | none =>
    match loadAllFromDisk key s.embeddingsDisk with
    | .error e => .error e
    | .ok [] => .error (Err.uncaught "IndexError: list index out of range")
    | .ok (base_vs :: restStores) =>
      let merged := restStores.foldl VectorStore.merge_from base_vs
      .ok (merged, { s with merged_vector_stores := ainsert key merged s.merged_vector_stores })

/-- Lines 234-252 of the query endpoint: obtain the index for the canonical
key (the Session Index Cache resolve step).  A one-element key uses
`load_vector_store` directly; any other key takes the merged-session
branch. -/
def resolve (document_ids : List String) (s : ServerState) :
    Except Err (VectorStore × ServerState) :=
  match document_ids with
  | [d] => load_vector_store d s
  | key => resolveMulti key s

/-- The query endpoint.  `retrieve` models the FAISS similarity retriever
(`search_type="similarity"`, `search_kwargs={"k": 4}`): given the store,
the question and k it returns the retrieved chunks in rank order.  `llm`
models the completion collaborator of the retrieval chain: given the
question, the retrieved context chunks and the chat history it returns the
answer text. -/
def query_document (retrieve : VectorStore → String → Nat → List String)
    (llm : String → List String → List (String × String) → String)
    (request_ids : List String) (query : String) (s : ServerState) :
    Except Err (QueryResponse × ServerState) :=
  let document_ids := canonicalKey request_ids
  match resolve document_ids s with
  | .error e => .error e
  | .ok (vs, s1) =>
    let chat_key := document_ids
    let chat_history := (alookup chat_key s1.multi_chat_histories).getD []
    let source_documents := retrieve vs query 4
    let answer := llm query source_documents chat_history
    let s2 := { s1 with
      multi_chat_histories :=
        ainsert chat_key (chat_history ++ [(query, answer)]) s1.multi_chat_histories }
    let sources := source_documents.map (fun doc => strTake doc 100 ++ "...")
    .ok ({ answer := answer, sources := sources }, s2)

/-- The delete endpoint: removes the SQLite metadata row and the per-id
uploads and embeddings directories.  The in-memory `documents`,
`multi_chat_histories` and `merged_vector_stores` dicts are not touched. -/
def delete_document (document_id : String) (s : ServerState) : String × ServerState :=
  ("Document " ++ document_id ++ " deleted successfully",
   { s with
     pdf_metadata := aerase document_id s.pdf_metadata,
     uploadsDisk := aerase document_id s.uploadsDisk,
     embeddingsDisk := aerase document_id s.embeddingsDisk })

/-- One upload response entry. -/
def uploadResp (uuid : Nat → String) (p : Nat × UploadFileInput) : PdfUploadResponse :=
  { document_id := uuid p.1,
    message := "PDF \x27" ++ p.2.filename ++ "\x27 uploaded and processing started" }

/-- The SQLite row inserted for an accepted file. -/
def metaRow (uuid : Nat → String) (now : String) (p : Nat × UploadFileInput) :
    String × String × String × Nat :=
  (uuid p.1, p.2.filename, now, p.2.content.length)

/-- The uploads-directory entry written for an accepted file. -/
def uploadEntry (uuid : Nat → String) (p : Nat × UploadFileInput) : String × String :=
  (uuid p.1, p.2.filename)

/-- The background task scheduled for an accepted file:
`(file_path, document_id)`. -/
def taskEntry (uuid : Nat → String) (p : Nat × UploadFileInput) : String × String :=
  ("uploads/" ++ uuid p.1 ++ "/" ++ p.2.filename, uuid p.1)

/-- The loop of the upload endpoint, processing files in request order.
`n` indexes the uuid supply.  A file whose lowercased name does not end in
`.pdf` aborts the request with HTTP 400, keeping the state changes already
made for earlier files.  For an accepted file the raw upload is written,
the metadata row is inserted and committed (a duplicate primary key would
make sqlite raise an IntegrityError) and processing is scheduled, before
moving to the next file. -/
def uploadLoop (uuid : Nat → String) (now : String) (n : Nat) (files : List UploadFileInput)
    (acc : List PdfUploadResponse) (s : ServerState) :
    (Except Err (List PdfUploadResponse)) × ServerState :=
  match files with
  | [] => (.ok acc, s)
  | file :: rest =>
    if strEndsWith (strToLower file.filename) ".pdf" then
      let s1 := { s with uploadsDisk := ainsert (uuid n) file.filename s.uploadsDisk }
      if (alookup (uuid n) s1.pdf_metadata).isSome then
        (.error (Err.uncaught "sqlite3.IntegrityError: UNIQUE constraint failed"), s1)
      else
        let s2 := { s1 with
          pdf_metadata := s1.pdf_metadata ++ [metaRow uuid now (n, file)],
          scheduled := s1.scheduled ++ [taskEntry uuid (n, file)] }
        uploadLoop uuid now (n + 1) rest (acc ++ [uploadResp uuid (n, file)]) s2
    else
      (.error (Err.httpError 400 ("Only PDF files are allowed: " ++ file.filename)), s)

/-- The upload endpoint: process the files in order with a fresh uuid
supply, starting from an empty response list. -/
def upload_pdf (uuid : Nat → String) (now : String) (files : List UploadFileInput)
    (s : ServerState) : (Except Err (List PdfUploadResponse)) × ServerState :=
  uploadLoop uuid now 0 files [] s

/-- `create_vector_store`: chunk the text (the splitter collaborator),
embed it, and persist the store under `embeddings/{document_id}`. -/
def create_vector_store (splitText : String → List String) (text : String)
    (document_id : String) (s : ServerState) : VectorStore × ServerState :=
  let vs : VectorStore := { chunks := splitText text }
  (vs, { s with embeddingsDisk := ainsert document_id vs s.embeddingsDisk })

/-- `process_pdf`, the scheduled background task: extract the text, build
and persist the vector store, and register the ready document in memory. -/
def process_pdf (extractText : String → String) (splitText : String → List String)
    (file_path : String) (document_id : String) (s : ServerState) : ServerState :=
  let r := create_vector_store splitText (extractText file_path) document_id s
  { r.2 with
    documents := ainsert document_id { vector_store := r.1, chat_history := [] } r.2.documents }

/-! ### Sample collaborators and states for concrete instantiations -/

/-- A concrete stand-in for the similarity retriever. -/
def sampleRetrieve : VectorStore → String → Nat → List String :=
  fun vs _q k => vs.chunks.take k

/-- A concrete stand-in for the completion model. -/
def sampleLlm : String → List String → List (String × String) → String :=
  fun q _ctx _hist => q ++ "-ans"

def vsA : VectorStore := { chunks := ["alpha one", "alpha two"] }

def vsB : VectorStore := { chunks := ["beta one"] }

def vsAB : VectorStore := { chunks := ["alpha one", "alpha two", "beta one"] }

def docA : DocEntry := { vector_store := vsA, chat_history := [] }

def sEmpty : ServerState :=
  { documents := [], multi_chat_histories := [], merged_vector_stores := [],
    embeddingsDisk := [], uploadsDisk := [], pdf_metadata := [], scheduled := [] }

def sDisk2 : ServerState := { sEmpty with embeddingsDisk := [("a", vsA), ("b", vsB)] }

def sDisk2m : ServerState := { sDisk2 with merged_vector_stores := [(["a", "b"], vsAB)] }

def sOneDisk : ServerState := { sEmpty with embeddingsDisk := [("a", vsA)] }

def sMemA : ServerState :=
  { sEmpty with
    documents := [("a", docA)],
    embeddingsDisk := [("a", vsA)],
    uploadsDisk := [("a", "a.pdf")],
    pdf_metadata := [("a", "a.pdf", "2026-01-01", 5)] }

def sMemA2 : ServerState :=
  { sMemA with multi_chat_histories := [(["a"], [("q1", "q1-ans")])] }

def respA : QueryResponse :=
  { answer := "q1-ans", sources := ["alpha one...", "alpha two..."] }

/-- A concrete injective uuid supply. -/
def uuid0 (n : Nat) : String := ⟨List.replicate n 'u'⟩

def files0 : List UploadFileInput := [⟨"a.PDF", "xx"⟩, ⟨"b.pdf", "y"⟩]

/-! ### Lemmas -/

theorem charListLe_total : ∀ as bs : List Char, charListLe as bs = true ∨ charListLe bs as = true := by
  intro as
  induction as with
  | nil => intro bs; left; simp [charListLe]
  | cons a as ih =>
    intro bs
    cases bs with
    | nil => right; simp [charListLe]
    | cons b bs =>
      by_cases hab : a = b
      · subst hab
        rcases ih bs with h | h
        · left; simp [charListLe, h]
        · right; simp [charListLe, h]
      · rcases lt_or_gt_of_ne hab with h | h
        · left; simp [charListLe, hab]; exact h
        · right
          have hba : ¬ b = a := fun e => hab e.symm
          simp [charListLe, hba]; exact h

theorem charListLe_trans : ∀ as bs cs : List Char,
    charListLe as bs = true → charListLe bs cs = true → charListLe as cs = true := by
  intro as
  induction as with
  | nil => intro bs cs h1 h2; simp [charListLe]
  | cons a as ih =>
    intro bs cs h1 h2
    cases bs with
    | nil => simp [charListLe] at h1
    | cons b bs =>
      cases cs with
      | nil => simp [charListLe] at h2
      | cons c cs =>
        by_cases hab : a = b <;> by_cases hbc : b = c
        · subst hab; subst hbc
          simp [charListLe] at h1 h2 ⊢
          exact ih _ _ h1 h2
        · subst hab
          simp [charListLe, hbc] at h2 ⊢
          exact h2
        · subst hbc
          simp [charListLe, hab] at h1 ⊢
          exact h1
        · simp [charListLe, hab] at h1
          simp [charListLe, hbc] at h2
          have hlt := lt_trans h1 h2
          simp [charListLe, ne_of_lt hlt]
          exact hlt

theorem charListLe_antisymm : ∀ as bs : List Char,
    charListLe as bs = true → charListLe bs as = true → as = bs := by
  intro as
  induction as with
  | nil =>
    intro bs h1 h2
    cases bs with
    | nil => rfl
    | cons b bs => simp [charListLe] at h2
  | cons a as ih =>
    intro bs h1 h2
    cases bs with
    | nil => simp [charListLe] at h1
    | cons b bs =>
      by_cases hab : a = b
      · subst hab
        simp [charListLe] at h1 h2
        exact congrArg (a :: ·) (ih _ h1 h2)
      · have hba : ¬ b = a := fun e => hab e.symm
        simp [charListLe, hab] at h1
        simp [charListLe, hba] at h2
        exact absurd h2 (not_lt_of_gt h1)

theorem alookup_ainsert_self {α β : Type} [DecidableEq α] (k : α) (v : β) (m : List (α × β)) :
    alookup k (ainsert k v m) = some v := by
  induction m with
  | nil => simp [ainsert, alookup]
  | cons p rest ih =>
    by_cases h : p.1 = k
    · simp [ainsert, alookup, h]
    · simp [ainsert, alookup, h, ih]

theorem alookup_ainsert_ne {α β : Type} [DecidableEq α] {k k2 : α} (v : β) (m : List (α × β))
    (h : k2 ≠ k) : alookup k2 (ainsert k v m) = alookup k2 m := by
  have h2 : ¬ k = k2 := Ne.symm h
  induction m with
  | nil => simp [ainsert, alookup, h2]
  | cons p rest ih =>
    by_cases hp : p.1 = k
    · simp [ainsert, alookup, hp, h2]
    · simp [ainsert, alookup, hp, ih]

theorem alookup_aerase_self {α β : Type} [DecidableEq α] (k : α) (m : List (α × β)) :
    alookup k (aerase k m) = none := by
  induction m with
  | nil => simp [aerase, alookup]
  | cons p rest ih =>
    by_cases h : p.1 = k
    · simpa [aerase, alookup, h] using ih
    · simpa [aerase, alookup, h] using ih

theorem alookup_append_of_none {α β : Type} [DecidableEq α] (k : α) (m1 m2 : List (α × β))
    (h : alookup k m1 = none) : alookup k (m1 ++ m2) = alookup k m2 := by
  induction m1 with
  | nil => simp
  | cons p rest ih =>
    by_cases hp : p.1 = k
    · simp [alookup, hp] at h
    · simp [alookup, hp] at h ⊢
      exact ih h

theorem ainsert_of_none {α β : Type} [DecidableEq α] (k : α) (v : β) (m : List (α × β))
    (h : alookup k m = none) : ainsert k v m = m ++ [(k, v)] := by
  induction m with
  | nil => simp [ainsert]
  | cons p rest ih =>
    by_cases hp : p.1 = k
    · simp [alookup, hp] at h
    · simp [alookup, hp] at h
      simp [ainsert, hp, ih h]

theorem canonicalKey_perm_dedup (l : List String) : (canonicalKey l).Perm l.dedup :=
  List.perm_insertionSort _ _

theorem canonicalKey_nodup (l : List String) : (canonicalKey l).Nodup :=
  (canonicalKey_perm_dedup l).nodup_iff.mpr (List.nodup_dedup l)

theorem mem_canonicalKey {x : String} {l : List String} : x ∈ canonicalKey l ↔ x ∈ l := by
  rw [(canonicalKey_perm_dedup l).mem_iff, List.mem_dedup]

theorem canonicalKey_sorted (l : List String) : List.Sorted strLeR (canonicalKey l) := by
  haveI : IsTotal String strLeR := ⟨fun a b => charListLe_total a.data b.data⟩
  haveI : IsTrans String strLeR := ⟨fun a b c => charListLe_trans a.data b.data c.data⟩
  exact List.sorted_insertionSort _ _

theorem canonicalKey_eq_of_set_eq {l1 l2 : List String} (h : ∀ x, x ∈ l1 ↔ x ∈ l2) :
    canonicalKey l1 = canonicalKey l2 := by
  haveI : IsAntisymm String strLeR :=
    ⟨fun a b h1 h2 => by
      cases a with
      | mk as =>
        cases b with
        | mk bs => exact congrArg String.mk (charListLe_antisymm as bs h1 h2)⟩
  exact List.eq_of_perm_of_sorted
    ((List.perm_ext_iff_of_nodup (canonicalKey_nodup l1) (canonicalKey_nodup l2)).mpr
      (fun a => by rw [mem_canonicalKey, mem_canonicalKey]; exact h a))
    (canonicalKey_sorted l1) (canonicalKey_sorted l2)

example : canonicalKey ["b", "a", "a"] = ["a", "b"] := by decide

example : canonicalKey [] = [] := by decide

example : strEndsWith (strToLower "A.PDF") ".pdf" = true := by decide

example : strEndsWith (strToLower "a.txt") ".pdf" = false := by decide

example : strTake "abcdef" 3 ++ "..." = "abc..." := by decide

/-! ### Case lemmas for the resolution pipeline -/

theorem load_vector_store_mem (d : String) (s : ServerState) (doc : DocEntry)
    (h : alookup d s.documents = some doc) :
    load_vector_store d s = .ok (doc.vector_store, s) := by
  simp [load_vector_store, h]

theorem load_vector_store_disk (d : String) (s : ServerState) (vs : VectorStore)
    (h1 : alookup d s.documents = none) (h2 : alookup d s.embeddingsDisk = some vs) :
    load_vector_store d s =
      .ok (vs, { s with
        documents := ainsert d { vector_store := vs, chat_history := [] } s.documents }) := by
  simp [load_vector_store, h1, h2]

theorem load_vector_store_missing (d : String) (s : ServerState)
    (h1 : alookup d s.documents = none) (h2 : alookup d s.embeddingsDisk = none) :
    load_vector_store d s = .error (Err.httpError 404 "Document not found") := by
  simp [load_vector_store, h1, h2]

theorem load_vector_store_ok_frame (d : String) (s : ServerState) (vs : VectorStore)
    (s1 : ServerState) (h : load_vector_store d s = .ok (vs, s1)) :
    s1.multi_chat_histories = s.multi_chat_histories ∧
    s1.merged_vector_stores = s.merged_vector_stores ∧
    s1.embeddingsDisk = s.embeddingsDisk := by
  unfold load_vector_store at h
  cases hm : alookup d s.documents with
  | some doc =>
    rw [hm] at h
    simp at h
    obtain ⟨h1, h2⟩ := h
    subst h2
    exact ⟨rfl, rfl, rfl⟩
  | none =>
    rw [hm] at h
    cases hd : alookup d s.embeddingsDisk with
    | none => rw [hd] at h; simp at h
    | some v =>
      rw [hd] at h
      simp at h
      obtain ⟨h1, h2⟩ := h
      subst h2
      exact ⟨rfl, rfl, rfl⟩

theorem resolveMulti_hit (key : List String) (s : ServerState) (vs : VectorStore)
    (h : alookup key s.merged_vector_stores = some vs) :
    resolveMulti key s = .ok (vs, s) := by
  simp [resolveMulti, h]

theorem resolveMulti_miss (key : List String) (s : ServerState) (base : VectorStore)
    (restStores : List VectorStore)
    (hmiss : alookup key s.merged_vector_stores = none)
    (hload : loadAllFromDisk key s.embeddingsDisk = .ok (base :: restStores)) :
    resolveMulti key s =
      .ok (restStores.foldl VectorStore.merge_from base,
        { s with
          merged_vector_stores :=
            ainsert key (restStores.foldl VectorStore.merge_from base)
              s.merged_vector_stores }) := by
  simp [resolveMulti, hmiss, hload]

theorem resolveMulti_load_error (key : List String) (s : ServerState) (e : Err)
    (hmiss : alookup key s.merged_vector_stores = none)
    (hload : loadAllFromDisk key s.embeddingsDisk = .error e) :
    resolveMulti key s = .error e := by
  simp [resolveMulti, hmiss, hload]

theorem resolveMulti_ok_frame (key : List String) (s : ServerState) (vs : VectorStore)
    (s1 : ServerState) (h : resolveMulti key s = .ok (vs, s1)) :
    s1.documents = s.documents ∧
    s1.multi_chat_histories = s.multi_chat_histories ∧
    s1.embeddingsDisk = s.embeddingsDisk := by
  unfold resolveMulti at h
  cases hm : alookup key s.merged_vector_stores with
  | some v =>
    rw [hm] at h
    simp at h
    obtain ⟨h1, h2⟩ := h
    subst h2
    exact ⟨rfl, rfl, rfl⟩
  | none =>
    rw [hm] at h
    cases hl : loadAllFromDisk key s.embeddingsDisk with
    | error e => rw [hl] at h; simp at h
    | ok stores =>
      rw [hl] at h
      cases stores with
      | nil => simp at h
      | cons b rest =>
        simp at h
        obtain ⟨h1, h2⟩ := h
        subst h2
        exact ⟨rfl, rfl, rfl⟩

theorem resolve_single_eq (d : String) (s : ServerState) :
    resolve [d] s = load_vector_store d s := rfl

theorem resolve_nil_eq (s : ServerState) : resolve [] s = resolveMulti [] s := rfl

theorem resolve_cons2_eq (k1 k2 : String) (ks : List String) (s : ServerState) :
    resolve (k1 :: k2 :: ks) s = resolveMulti (k1 :: k2 :: ks) s := rfl

theorem resolve_ok_chat (key : List String) (s : ServerState) (vs : VectorStore)
    (s1 : ServerState) (h : resolve key s = .ok (vs, s1)) :
    s1.multi_chat_histories = s.multi_chat_histories := by
  rcases key with _ | ⟨k1, _ | ⟨k2, ks⟩⟩
  · exact (resolveMulti_ok_frame _ _ _ _ h).2.1
  · exact (load_vector_store_ok_frame _ _ _ _ h).1
  · exact (resolveMulti_ok_frame _ _ _ _ h).2.1

theorem resolveMulti_ok_cached (key : List String) (s : ServerState) (vs : VectorStore)
    (s1 : ServerState) (h : resolveMulti key s = .ok (vs, s1)) :
    alookup key s1.merged_vector_stores = some vs := by
  unfold resolveMulti at h
  cases hm : alookup key s.merged_vector_stores with
  | some v =>
    rw [hm] at h
    simp at h
    obtain ⟨h1, h2⟩ := h
    subst h2
    rw [hm, h1]
  | none =>
    rw [hm] at h
    cases hl : loadAllFromDisk key s.embeddingsDisk with
    | error e => rw [hl] at h; simp at h
    | ok stores =>
      rw [hl] at h
      cases stores with
      | nil => simp at h
      | cons b rest =>
        simp at h
        obtain ⟨h1, h2⟩ := h
        subst h2
        simp [h1, alookup_ainsert_self]

theorem resolve_ok_cached (k1 k2 : String) (ks : List String) (s : ServerState)
    (vs : VectorStore) (s1 : ServerState)
    (h : resolve (k1 :: k2 :: ks) s = .ok (vs, s1)) :
    resolve (k1 :: k2 :: ks) s1 = .ok (vs, s1) := by
  rw [resolve_cons2_eq] at h ⊢
  have hcache := resolveMulti_ok_cached _ _ _ _ h
  have hframe := resolveMulti_ok_frame _ _ _ _ h
  exact resolveMulti_hit _ _ _ hcache

theorem loadAllFromDisk_missing (d : String) :
    ∀ (ids : List String) (disk : List (String × VectorStore)),
      d ∈ ids → alookup d disk = none →
      ∃ msg, loadAllFromDisk ids disk = .error (Err.uncaught msg) := by
  intro ids
  induction ids with
  | nil => intro disk hmem _; simp at hmem
  | cons i rest ih =>
    intro disk hmem hd
    rcases List.mem_cons.mp hmem with he | hrest
    · subst he
      exact ⟨"FAISS.load_local failed: embeddings/" ++ d ++ " does not exist",
        by simp [loadAllFromDisk, hd]⟩
    · cases hi : alookup i disk with
      | none =>
        exact ⟨"FAISS.load_local failed: embeddings/" ++ i ++ " does not exist",
          by simp [loadAllFromDisk, hi]⟩
      | some v =>
        obtain ⟨msg, hmsg⟩ := ih disk hrest hd
        exact ⟨msg, by simp [loadAllFromDisk, hi, hmsg]⟩

/-! ### Lemmas about the upload loop -/

theorem enumFrom_cons_eq {α : Type} (n : Nat) (a : α) (l : List α) :
    List.enumFrom n (a :: l) = (n, a) :: List.enumFrom (n + 1) l := rfl

theorem uploadLoop_step_good (uuid : Nat → String) (now : String) (n : Nat)
    (file : UploadFileInput) (rest : List UploadFileInput) (acc : List PdfUploadResponse)
    (s : ServerState)
    (hgood : strEndsWith (strToLower file.filename) ".pdf" = true)
    (hfresh : alookup (uuid n) s.pdf_metadata = none)
    (hfreshUp : alookup (uuid n) s.uploadsDisk = none) :
    uploadLoop uuid now n (file :: rest) acc s =
      uploadLoop uuid now (n + 1) rest (acc ++ [uploadResp uuid (n, file)])
        { s with
          pdf_metadata := s.pdf_metadata ++ [metaRow uuid now (n, file)],
          uploadsDisk := s.uploadsDisk ++ [uploadEntry uuid (n, file)],
          scheduled := s.scheduled ++ [taskEntry uuid (n, file)] } := by
  simp [uploadLoop, hgood, hfresh, ainsert_of_none _ _ _ hfreshUp, uploadEntry]

theorem uploadLoop_good_prefix (uuid : Nat → String) (now : String) :
    ∀ (pre tail : List UploadFileInput) (n : Nat) (acc : List PdfUploadResponse)
      (s : ServerState),
    (∀ f ∈ pre, strEndsWith (strToLower f.filename) ".pdf" = true) →
    (∀ i, i < pre.length → alookup (uuid (n + i)) s.pdf_metadata = none) →
    (∀ i, i < pre.length → alookup (uuid (n + i)) s.uploadsDisk = none) →
    (∀ i j, i < pre.length → j < pre.length → i ≠ j → uuid (n + i) ≠ uuid (n + j)) →
    uploadLoop uuid now n (pre ++ tail) acc s =
      uploadLoop uuid now (n + pre.length) tail
        (acc ++ (List.enumFrom n pre).map (uploadResp uuid))
        { s with
          pdf_metadata := s.pdf_metadata ++ (List.enumFrom n pre).map (metaRow uuid now),
          uploadsDisk := s.uploadsDisk ++ (List.enumFrom n pre).map (uploadEntry uuid),
          scheduled := s.scheduled ++ (List.enumFrom n pre).map (taskEntry uuid) } := by
  intro pre
  induction pre with
  | nil =>
    intro tail n acc s _ _ _ _
    simp [List.enumFrom]
  | cons f pre ih =>
    intro tail n acc s hall hm hu hinj
    have hgood : strEndsWith (strToLower f.filename) ".pdf" = true :=
      hall f (List.mem_cons_self f pre)
    have h0m : alookup (uuid n) s.pdf_metadata = none := by
      have := hm 0 (by simp)
      simpa using this
    have h0u : alookup (uuid n) s.uploadsDisk = none := by
      have := hu 0 (by simp)
      simpa using this
    have key_ne : ∀ i, i < pre.length → uuid n ≠ uuid (n + 1 + i) := by
      intro i hi
      have h1 : (0 : Nat) ≠ i + 1 := by omega
      have h2 := hinj 0 (i + 1) (by simp) (by simp; omega) h1
      have e0 : n + 0 = n := by omega
      have e1 : n + (i + 1) = n + 1 + i := by omega
      rw [e0, e1] at h2
      exact h2
    have hall2 : ∀ g ∈ pre, strEndsWith (strToLower g.filename) ".pdf" = true :=
      fun g hg => hall g (List.mem_cons_of_mem _ hg)
    have hm2 : ∀ i, i < pre.length →
        alookup (uuid (n + 1 + i)) (s.pdf_metadata ++ [metaRow uuid now (n, f)]) = none := by
      intro i hi
      have hpre2 := hm (i + 1) (by simp; omega)
      have e1 : n + (i + 1) = n + 1 + i := by omega
      rw [e1] at hpre2
      rw [alookup_append_of_none _ _ _ hpre2]
      simp [alookup, metaRow, key_ne i hi]
    have hu2 : ∀ i, i < pre.length →
        alookup (uuid (n + 1 + i)) (s.uploadsDisk ++ [uploadEntry uuid (n, f)]) = none := by
      intro i hi
      have hpre2 := hu (i + 1) (by simp; omega)
      have e1 : n + (i + 1) = n + 1 + i := by omega
      rw [e1] at hpre2
      rw [alookup_append_of_none _ _ _ hpre2]
      simp [alookup, uploadEntry, key_ne i hi]
    have hinj2 : ∀ i j, i < pre.length → j < pre.length → i ≠ j →
        uuid (n + 1 + i) ≠ uuid (n + 1 + j) := by
      intro i j hi hj hij
      have e1 : n + 1 + i = n + (i + 1) := by omega
      have e2 : n + 1 + j = n + (j + 1) := by omega
      rw [e1, e2]
      exact hinj (i + 1) (j + 1) (by simp; omega) (by simp; omega) (by omega)
    rw [List.cons_append, uploadLoop_step_good uuid now n f (pre ++ tail) acc s hgood h0m h0u]
    rw [ih tail (n + 1) (acc ++ [uploadResp uuid (n, f)]) _ hall2 hm2 hu2 hinj2]
    have e : n + 1 + pre.length = n + (pre.length + 1) := by omega
    simp [enumFrom_cons_eq, List.append_assoc, e]

theorem uploadLoop_first_bad (uuid : Nat → String) (now : String) :
    ∀ (files : List UploadFileInput) (n : Nat) (acc : List PdfUploadResponse)
      (s : ServerState),
    (∀ i, i < files.length → alookup (uuid (n + i)) s.pdf_metadata = none) →
    (∀ i j, i < files.length → j < files.length → i ≠ j → uuid (n + i) ≠ uuid (n + j)) →
    (∃ f ∈ files, ¬ strEndsWith (strToLower f.filename) ".pdf" = true) →
    ∃ detail, (uploadLoop uuid now n files acc s).1 = .error (Err.httpError 400 detail) := by
  intro files
  induction files with
  | nil => intro n acc s _ _ hex; simp at hex
  | cons f rest ih =>
    intro n acc s hm hinj hex
    by_cases hf : strEndsWith (strToLower f.filename) ".pdf" = true
    · rcases hex with ⟨g, hg, hbad⟩
      rcases List.mem_cons.mp hg with he | hgrest
      · rw [← he] at hf
        exact absurd hf hbad
      · have h0m : alookup (uuid n) s.pdf_metadata = none := by
          have := hm 0 (by simp)
          simpa using this
        have key_ne : ∀ i, i < rest.length → uuid n ≠ uuid (n + 1 + i) := by
          intro i hi
          have h1 : (0 : Nat) ≠ i + 1 := by omega
          have h2 := hinj 0 (i + 1) (by simp) (by simp; omega) h1
          have e0 : n + 0 = n := by omega
          have e1 : n + (i + 1) = n + 1 + i := by omega
          rw [e0, e1] at h2
          exact h2
        have hm2 : ∀ i, i < rest.length →
            alookup (uuid (n + 1 + i)) (s.pdf_metadata ++ [metaRow uuid now (n, f)]) = none := by
          intro i hi
          have hpre2 := hm (i + 1) (by simp; omega)
          have e1 : n + (i + 1) = n + 1 + i := by omega
          rw [e1] at hpre2
          rw [alookup_append_of_none _ _ _ hpre2]
          simp [alookup, metaRow, key_ne i hi]
        have hinj2 : ∀ i j, i < rest.length → j < rest.length → i ≠ j →
            uuid (n + 1 + i) ≠ uuid (n + 1 + j) := by
          intro i j hi hj hij
          have e1 : n + 1 + i = n + (i + 1) := by omega
          have e2 : n + 1 + j = n + (j + 1) := by omega
          rw [e1, e2]
          exact hinj (i + 1) (j + 1) (by simp; omega) (by simp; omega) (by omega)
        have hstep : uploadLoop uuid now n (f :: rest) acc s =
            uploadLoop uuid now (n + 1) rest (acc ++ [uploadResp uuid (n, f)])
              { s with
                pdf_metadata := s.pdf_metadata ++ [metaRow uuid now (n, f)],
                uploadsDisk := ainsert (uuid n) f.filename s.uploadsDisk,
                scheduled := s.scheduled ++ [taskEntry uuid (n, f)] } := by
          simp [uploadLoop, hf, h0m]
        rw [hstep]
        exact ih (n + 1) _ _ hm2 hinj2 ⟨g, hgrest, hbad⟩
    · exact ⟨"Only PDF files are allowed: " ++ f.filename, by simp [uploadLoop, hf]⟩

theorem pairwiseAnd {α : Type} {R S : α → α → Prop} :
    ∀ {l : List α}, l.Pairwise R → l.Pairwise S → l.Pairwise (fun a b => R a b ∧ S a b) := by
  intro l
  induction l with
  | nil => intro _ _; exact List.Pairwise.nil
  | cons a l ih =>
    intro hR hS
    rcases List.pairwise_cons.mp hR with ⟨hRa, hRl⟩
    rcases List.pairwise_cons.mp hS with ⟨hSa, hSl⟩
    exact List.pairwise_cons.mpr ⟨fun b hb => ⟨hRa b hb, hSa b hb⟩, ih hRl hSl⟩

theorem uuid0_inj : ∀ i j : Nat, i ≠ j → uuid0 i ≠ uuid0 j := by
  intro i j hne he
  apply hne
  have hd : List.replicate i 'u' = List.replicate j 'u' := congrArg String.data he
  have hl := congrArg List.length hd
  simpa using hl

/-! ### The claims -/

/-- C1: session-key canonicalization.  For every pair of non-empty id
lists that are equal as sets, the query endpoint computes the same
canonical key (the sorted tuple of unique ids), hence returns identical
results from identical states; and once a multi-member canonical key has
been resolved, resolving the other spelling of the set against the
resulting state returns the identical cached session index object. -/
theorem session_key_canonicalization
    (retrieve : VectorStore → String → Nat → List String)
    (llm : String → List String → List (String × String) → String)
    (q : String) (s : ServerState) (l1 l2 : List String)
    (k1 k2 : String) (ks : List String) (vs : VectorStore) (s1 : ServerState)
    (h1 : l1 ≠ []) (h2 : l2 ≠ []) (hset : ∀ x, x ∈ l1 ↔ x ∈ l2) :
    canonicalKey l1 = canonicalKey l2 ∧
    query_document retrieve llm l1 q s = query_document retrieve llm l2 q s ∧
    (canonicalKey l1 = k1 :: k2 :: ks → resolve (canonicalKey l1) s = .ok (vs, s1) →
      resolve (canonicalKey l2) s1 = .ok (vs, s1)) := by
  have hkey : canonicalKey l1 = canonicalKey l2 := canonicalKey_eq_of_set_eq hset
  refine ⟨hkey, ?_, ?_⟩
  · unfold query_document
    rw [hkey]
  · intro hshape hres
    rw [← hkey]
    rw [hshape] at hres ⊢
    exact resolve_ok_cached _ _ _ _ _ _ hres

theorem session_key_canonicalization_witness :
    canonicalKey ["b", "a"] = canonicalKey ["a", "b", "a"] ∧
    query_document sampleRetrieve sampleLlm ["b", "a"] "q" sDisk2 =
      query_document sampleRetrieve sampleLlm ["a", "b", "a"] "q" sDisk2 ∧
    (canonicalKey ["b", "a"] = "a" :: "b" :: [] →
      resolve (canonicalKey ["b", "a"]) sDisk2 = .ok (vsAB, sDisk2m) →
      resolve (canonicalKey ["a", "b", "a"]) sDisk2m = .ok (vsAB, sDisk2m)) :=
  session_key_canonicalization sampleRetrieve sampleLlm "q" sDisk2 ["b", "a"] ["a", "b", "a"]
    "a" "b" [] vsAB sDisk2m (by decide) (by decide)
    (by
      intro x
      simp only [List.mem_cons, List.not_mem_nil, or_false]
      constructor
      · rintro (h | h)
        · exact Or.inr (Or.inl h)
        · exact Or.inl h
      · rintro (h | h | h)
        · exact Or.inr h
        · exact Or.inl h
        · exact Or.inr h)

/-- C2: single-document bypass.  When the canonical id set is exactly
{d}, resolve returns the live per-document index directly: the
memory-resident store if there is one (state unchanged), else the store
loaded from disk (installed into the documents map), and in either case
no merge happens and no merged-session cache entry is created. -/
theorem single_document_bypass (d : String) (s : ServerState) :
    (∀ doc : DocEntry, alookup d s.documents = some doc →
      resolve [d] s = .ok (doc.vector_store, s)) ∧
    (∀ vs : VectorStore, alookup d s.documents = none →
      alookup d s.embeddingsDisk = some vs →
      resolve [d] s =
        .ok (vs, { s with
          documents := ainsert d { vector_store := vs, chat_history := [] } s.documents })) ∧
    (∀ (vs : VectorStore) (s1 : ServerState), resolve [d] s = .ok (vs, s1) →
      s1.merged_vector_stores = s.merged_vector_stores) := by
  refine ⟨?_, ?_, ?_⟩
  · intro doc h
    rw [resolve_single_eq]
    exact load_vector_store_mem d s doc h
  · intro vs hm hd
    rw [resolve_single_eq]
    exact load_vector_store_disk d s vs hm hd
  · intro vs s1 h
    rw [resolve_single_eq] at h
    exact (load_vector_store_ok_frame d s vs s1 h).2.1

theorem single_document_bypass_witness :
    resolve ["a"] sMemA = .ok (docA.vector_store, sMemA) ∧
    resolve ["a"] sDisk2 =
      .ok (vsA, { sDisk2 with
        documents := ainsert "a" { vector_store := vsA, chat_history := [] } sDisk2.documents }) :=
  ⟨(single_document_bypass "a" sMemA).1 docA (by decide),
   (single_document_bypass "a" sDisk2).2.1 vsA (by decide) (by decide)⟩

/-- C3: merge frame property.  On a multi-member session-cache miss whose
members all load from disk, the canonical key is strictly ascending,
resolve returns the fold of the destructive merge over the freshly loaded
disk copies in key order and caches it under the key, and the documents
map (every Document's own stored in-memory index) and the persisted
embeddings are left unchanged. -/
theorem merge_frame_property (ids : List String) (k1 k2 : String) (ks : List String)
    (s : ServerState) (base : VectorStore) (restStores : List VectorStore)
    (hkey : canonicalKey ids = k1 :: k2 :: ks)
    (hmiss : alookup (k1 :: k2 :: ks) s.merged_vector_stores = none)
    (hload : loadAllFromDisk (k1 :: k2 :: ks) s.embeddingsDisk = .ok (base :: restStores)) :
    List.Pairwise (fun a b => strLeR a b ∧ a ≠ b) (k1 :: k2 :: ks) ∧
    resolve (canonicalKey ids) s =
      .ok (restStores.foldl VectorStore.merge_from base,
        { s with
          merged_vector_stores :=
            ainsert (k1 :: k2 :: ks) (restStores.foldl VectorStore.merge_from base)
              s.merged_vector_stores }) ∧
    (∀ (vs : VectorStore) (s1 : ServerState), resolve (canonicalKey ids) s = .ok (vs, s1) →
      s1.documents = s.documents ∧ s1.embeddingsDisk = s.embeddingsDisk) := by
  constructor
  · have hp := pairwiseAnd (canonicalKey_sorted ids) (canonicalKey_nodup ids)
    rw [hkey] at hp
    exact hp
  constructor
  · rw [hkey, resolve_cons2_eq]
    exact resolveMulti_miss _ _ _ _ hmiss hload
  · intro vs s1 h
    rw [hkey, resolve_cons2_eq] at h
    have hf := resolveMulti_ok_frame _ _ _ _ h
    exact ⟨hf.1, hf.2.2⟩

theorem merge_frame_property_witness :
    List.Pairwise (fun a b => strLeR a b ∧ a ≠ b) ("a" :: "b" :: []) ∧
    resolve (canonicalKey ["b", "a"]) sDisk2 =
      .ok (([vsB]).foldl VectorStore.merge_from vsA,
        { sDisk2 with
          merged_vector_stores :=
            ainsert ("a" :: "b" :: []) (([vsB]).foldl VectorStore.merge_from vsA)
              sDisk2.merged_vector_stores }) ∧
    (∀ (vs : VectorStore) (s1 : ServerState),
      resolve (canonicalKey ["b", "a"]) sDisk2 = .ok (vs, s1) →
      s1.documents = sDisk2.documents ∧ s1.embeddingsDisk = sDisk2.embeddingsDisk) :=
  merge_frame_property ["b", "a"] "a" "b" [] sDisk2 vsA [vsB]
    (by decide) (by decide) (by decide)

/-- C4 counterexample: resolving the set {a, b} when b lacks persisted
storage does not fail with the 404 NotFound error in the multi-document
merge path: the unchecked loader raises an uncaught exception instead. -/
theorem resolve_missing_storage_counterexample :
    alookup "b" sOneDisk.embeddingsDisk = none ∧
    resolve ["a", "b"] sOneDisk =
      .error (Err.uncaught "FAISS.load_local failed: embeddings/b does not exist") ∧
    resolve ["a", "b"] sOneDisk ≠ .error (Err.httpError 404 "Document not found") := by
  refine ⟨by decide, by decide, by decide⟩

/-- C4 (amended): if a member id lacks persisted storage, resolve fails
with the 404 NotFound error in the single-document path provided the id is
also not memory-resident, while the multi-document merge path on a cache
miss fails with an uncaught loader error (not an HTTPException). -/
theorem resolve_missing_storage (d k1 k2 : String) (ks : List String) (s s2 : ServerState)
    (hmem : alookup d s.documents = none)
    (hdisk : alookup d s.embeddingsDisk = none)
    (hd2 : d ∈ k1 :: k2 :: ks)
    (hmiss : alookup (k1 :: k2 :: ks) s2.merged_vector_stores = none)
    (hdisk2 : alookup d s2.embeddingsDisk = none) :
    resolve [d] s = .error (Err.httpError 404 "Document not found") ∧
    ∃ msg, resolve (k1 :: k2 :: ks) s2 = .error (Err.uncaught msg) := by
  constructor
  · rw [resolve_single_eq]
    exact load_vector_store_missing d s hmem hdisk
  · obtain ⟨msg, hmsg⟩ := loadAllFromDisk_missing d (k1 :: k2 :: ks) s2.embeddingsDisk hd2 hdisk2
    exact ⟨msg, by rw [resolve_cons2_eq]; exact resolveMulti_load_error _ _ _ hmiss hmsg⟩

theorem resolve_missing_storage_witness :
    resolve ["x"] sEmpty = .error (Err.httpError 404 "Document not found") ∧
    ∃ msg, resolve ("a" :: "x" :: []) sOneDisk = .error (Err.uncaught msg) :=
  resolve_missing_storage "x" "a" "x" [] sEmpty sOneDisk
    (by decide) (by decide) (by decide) (by decide) (by decide)

/-- C5 counterexample: with document a memory-resident, delete removes the
persisted storage but not the in-memory entry, so a subsequent resolve of
{a} still succeeds from memory instead of failing with NotFound. -/
theorem delete_document_counterexample :
    alookup "a" ((delete_document "a" sMemA).2).embeddingsDisk = none ∧
    alookup "a" ((delete_document "a" sMemA).2).documents = some docA ∧
    resolve ["a"] ((delete_document "a" sMemA).2) =
      .ok (vsA, (delete_document "a" sMemA).2) := by
  refine ⟨by decide, by decide, by decide⟩

/-- C5 (amended): delete removes the metadata row, the uploaded file and
the persisted embeddings for the id, but leaves the in-memory documents
map unchanged; consequently a subsequent single-document resolve of the id
fails with the 404 NotFound error exactly when the id was not
memory-resident at deletion time. -/
theorem delete_document_effects (d : String) (s : ServerState) :
    alookup d ((delete_document d s).2).pdf_metadata = none ∧
    alookup d ((delete_document d s).2).uploadsDisk = none ∧
    alookup d ((delete_document d s).2).embeddingsDisk = none ∧
    ((delete_document d s).2).documents = s.documents ∧
    (alookup d s.documents = none →
      resolve [d] ((delete_document d s).2) =
        .error (Err.httpError 404 "Document not found")) := by
  refine ⟨alookup_aerase_self _ _, alookup_aerase_self _ _, alookup_aerase_self _ _, rfl, ?_⟩
  intro h
  rw [resolve_single_eq]
  exact load_vector_store_missing d _ h (alookup_aerase_self _ _)

theorem delete_document_effects_witness :
    alookup "a" ((delete_document "a" sDisk2).2).pdf_metadata = none ∧
    alookup "a" ((delete_document "a" sDisk2).2).uploadsDisk = none ∧
    alookup "a" ((delete_document "a" sDisk2).2).embeddingsDisk = none ∧
    ((delete_document "a" sDisk2).2).documents = sDisk2.documents ∧
    resolve ["a"] ((delete_document "a" sDisk2).2) =
      .error (Err.httpError 404 "Document not found") := by
  have h := delete_document_effects "a" sDisk2
  exact ⟨h.1, h.2.1, h.2.2.1, h.2.2.2.1, h.2.2.2.2 (by decide)⟩

/-- C6: conversation history.  A successful query appends exactly one
(question, answer) turn to the history stored under its canonical session
key, and leaves the history of every other session key unchanged. -/
theorem conversation_history_append
    (retrieve : VectorStore → String → Nat → List String)
    (llm : String → List String → List (String × String) → String)
    (ids : List String) (q : String) (s s2 : ServerState) (resp : QueryResponse)
    (k : List String)
    (hok : query_document retrieve llm ids q s = .ok (resp, s2))
    (hk : k ≠ canonicalKey ids) :
    alookup (canonicalKey ids) s2.multi_chat_histories =
      some ((alookup (canonicalKey ids) s.multi_chat_histories).getD []
        ++ [(q, resp.answer)]) ∧
    alookup k s2.multi_chat_histories = alookup k s.multi_chat_histories := by
  cases hres : resolve (canonicalKey ids) s with
  | error e => simp [query_document, hres] at hok
  | ok p =>
    obtain ⟨vs, s1⟩ := p
    simp only [query_document, hres, Except.ok.injEq, Prod.mk.injEq] at hok
    obtain ⟨hr, hs⟩ := hok
    have hchat := resolve_ok_chat _ _ _ _ hres
    subst hs
    subst hr
    constructor
    · simp [hchat, alookup_ainsert_self]
    · simp [alookup_ainsert_ne _ _ hk, hchat]

theorem conversation_history_append_witness :
    alookup (canonicalKey ["a"]) sMemA2.multi_chat_histories =
      some ((alookup (canonicalKey ["a"]) sMemA.multi_chat_histories).getD []
        ++ [("q1", respA.answer)]) ∧
    alookup ["zzz"] sMemA2.multi_chat_histories =
      alookup ["zzz"] sMemA.multi_chat_histories :=
  conversation_history_append sampleRetrieve sampleLlm ["a"] "q1" sMemA sMemA2 respA
    ["zzz"] (by decide) (by decide)

/-- C7: evidence list shape.  A successful query calls the similarity
retriever with k = 4 on the resolved index, and its sources list is, in
retrieval order, the first-100-character preview of each retrieved chunk
followed by the ellipsis marker; the answer is produced by the completion
collaborator from the question, those same retrieved chunks and the prior
history. -/
theorem evidence_list_shape
    (retrieve : VectorStore → String → Nat → List String)
    (llm : String → List String → List (String × String) → String)
    (ids : List String) (q : String) (s s1 s2 : ServerState) (vs : VectorStore)
    (resp : QueryResponse)
    (hres : resolve (canonicalKey ids) s = .ok (vs, s1))
    (hok : query_document retrieve llm ids q s = .ok (resp, s2)) :
    resp.sources = (retrieve vs q 4).map (fun c => strTake c 100 ++ "...") ∧
    resp.answer =
      llm q (retrieve vs q 4)
        ((alookup (canonicalKey ids) s.multi_chat_histories).getD []) := by
  simp only [query_document, hres, Except.ok.injEq, Prod.mk.injEq] at hok
  obtain ⟨hr, hs⟩ := hok
  have hchat := resolve_ok_chat _ _ _ _ hres
  subst hr
  exact ⟨rfl, by simp [hchat]⟩

theorem evidence_list_shape_witness :
    respA.sources = (sampleRetrieve vsA "q1" 4).map (fun c => strTake c 100 ++ "...") ∧
    respA.answer =
      sampleLlm "q1" (sampleRetrieve vsA "q1" 4)
        ((alookup (canonicalKey ["a"]) sMemA.multi_chat_histories).getD []) :=
  evidence_list_shape sampleRetrieve sampleLlm ["a"] "q1" sMemA sMemA sMemA2 vsA respA
    (by decide) (by decide)

/-- C8: upload validation.  If any file of the batch lacks the (case
insensitive) .pdf extension the request fails with an HTTP 400 error;
if every file has it, the request immediately returns one freshly
assigned document id per file, the documents map is untouched (the ids
are still pending) and processing of each file has been scheduled as a
background task. -/
theorem upload_validation (uuid : Nat → String) (now : String)
    (files : List UploadFileInput) (s : ServerState)
    (hm : ∀ i, i < files.length → alookup (uuid i) s.pdf_metadata = none)
    (hu : ∀ i, i < files.length → alookup (uuid i) s.uploadsDisk = none)
    (hinj : ∀ i j, i < files.length → j < files.length → i ≠ j → uuid i ≠ uuid j) :
    ((∃ f ∈ files, ¬ strEndsWith (strToLower f.filename) ".pdf" = true) →
      ∃ detail, (upload_pdf uuid now files s).1 = .error (Err.httpError 400 detail)) ∧
    ((∀ f ∈ files, strEndsWith (strToLower f.filename) ".pdf" = true) →
      (upload_pdf uuid now files s).1 =
        .ok ((List.enumFrom 0 files).map (uploadResp uuid)) ∧
      ((upload_pdf uuid now files s).2).documents = s.documents ∧
      ((upload_pdf uuid now files s).2).scheduled =
        s.scheduled ++ (List.enumFrom 0 files).map (taskEntry uuid)) := by
  constructor
  · intro hex
    exact uploadLoop_first_bad uuid now files 0 [] s
      (fun i hi => by simpa using hm i hi)
      (fun i j hi hj hij => by simpa using hinj i j hi hj hij) hex
  · intro hall
    have h := uploadLoop_good_prefix uuid now files [] 0 [] s hall
      (fun i hi => by simpa using hm i hi)
      (fun i hi => by simpa using hu i hi)
      (fun i j hi hj hij => by simpa using hinj i j hi hj hij)
    rw [List.append_nil] at h
    unfold upload_pdf
    rw [h]
    simp [uploadLoop]

theorem upload_validation_witness :
    ((∃ f ∈ files0, ¬ strEndsWith (strToLower f.filename) ".pdf" = true) →
      ∃ detail, (upload_pdf uuid0 "now" files0 sEmpty).1 = .error (Err.httpError 400 detail)) ∧
    ((∀ f ∈ files0, strEndsWith (strToLower f.filename) ".pdf" = true) →
      (upload_pdf uuid0 "now" files0 sEmpty).1 =
        .ok ((List.enumFrom 0 files0).map (uploadResp uuid0)) ∧
      ((upload_pdf uuid0 "now" files0 sEmpty).2).documents = sEmpty.documents ∧
      ((upload_pdf uuid0 "now" files0 sEmpty).2).scheduled =
        sEmpty.scheduled ++ (List.enumFrom 0 files0).map (taskEntry uuid0)) :=
  upload_validation uuid0 "now" files0 sEmpty (fun _ _ => rfl) (fun _ _ => rfl)
    (fun i j _ _ hne => uuid0_inj i j hne)

/-- C9: the empty-set query is unhandled.  For an empty document_ids list
the canonical key is the empty tuple, the multi-document branch runs, and
the unguarded indexing of the empty loaded list raises an IndexError that
is not an HTTPException of any status, in particular not one of the
error taxonomy. -/
theorem empty_query_unhandled
    (retrieve : VectorStore → String → Nat → List String)
    (llm : String → List String → List (String × String) → String)
    (q : String) (s : ServerState) (status : Nat) (detail : String)
    (h : alookup ([] : List String) s.merged_vector_stores = none) :
    canonicalKey [] = ([] : List String) ∧
    query_document retrieve llm [] q s =
      .error (Err.uncaught "IndexError: list index out of range") ∧
    Err.uncaught "IndexError: list index out of range" ≠ Err.httpError status detail := by
  refine ⟨by decide, ?_, by simp⟩
  have hck : canonicalKey [] = ([] : List String) := by decide
  have hres : resolve (canonicalKey []) s =
      .error (Err.uncaught "IndexError: list index out of range") := by
    rw [hck, resolve_nil_eq]
    simp [resolveMulti, h, loadAllFromDisk]
  unfold query_document
  simp [hres]

theorem empty_query_unhandled_witness :
    canonicalKey [] = ([] : List String) ∧
    query_document sampleRetrieve sampleLlm [] "q" sEmpty =
      .error (Err.uncaught "IndexError: list index out of range") ∧
    Err.uncaught "IndexError: list index out of range" ≠
      Err.httpError 404 "Document not found" :=
  empty_query_unhandled sampleRetrieve sampleLlm "q" sEmpty 404 "Document not found"
    (by decide)

/-- C10: upload batch non-atomicity.  When a batch is a run of valid .pdf
files followed by a file without the extension, the request fails with
HTTP 400 naming the first offending file, yet every preceding file has
already been written to upload storage, recorded in the metadata table and
scheduled for background processing; only the documents map is untouched. -/
theorem upload_batch_nonatomic (uuid : Nat → String) (now : String)
    (pre : List UploadFileInput) (bad : UploadFileInput) (rest : List UploadFileInput)
    (s : ServerState)
    (hpre : ∀ f ∈ pre, strEndsWith (strToLower f.filename) ".pdf" = true)
    (hbad : ¬ strEndsWith (strToLower bad.filename) ".pdf" = true)
    (hm : ∀ i, i < pre.length → alookup (uuid i) s.pdf_metadata = none)
    (hu : ∀ i, i < pre.length → alookup (uuid i) s.uploadsDisk = none)
    (hinj : ∀ i j, i < pre.length → j < pre.length → i ≠ j → uuid i ≠ uuid j) :
    (upload_pdf uuid now (pre ++ bad :: rest) s).1 =
      .error (Err.httpError 400 ("Only PDF files are allowed: " ++ bad.filename)) ∧
    ((upload_pdf uuid now (pre ++ bad :: rest) s).2).pdf_metadata =
      s.pdf_metadata ++ (List.enumFrom 0 pre).map (metaRow uuid now) ∧
    ((upload_pdf uuid now (pre ++ bad :: rest) s).2).uploadsDisk =
      s.uploadsDisk ++ (List.enumFrom 0 pre).map (uploadEntry uuid) ∧
    ((upload_pdf uuid now (pre ++ bad :: rest) s).2).scheduled =
      s.scheduled ++ (List.enumFrom 0 pre).map (taskEntry uuid) ∧
    ((upload_pdf uuid now (pre ++ bad :: rest) s).2).documents = s.documents := by
  have h := uploadLoop_good_prefix uuid now pre (bad :: rest) 0 [] s hpre
    (fun i hi => by simpa using hm i hi)
    (fun i hi => by simpa using hu i hi)
    (fun i j hi hj hij => by simpa using hinj i j hi hj hij)
  unfold upload_pdf
  rw [h]
  simp [uploadLoop, hbad]

theorem upload_batch_nonatomic_witness :
    (upload_pdf uuid0 "now" ([⟨"a.pdf", "x"⟩] ++ ⟨"b.txt", "y"⟩ :: [⟨"c.pdf", "z"⟩]) sEmpty).1 =
      .error (Err.httpError 400 ("Only PDF files are allowed: " ++ "b.txt")) ∧
    ((upload_pdf uuid0 "now" ([⟨"a.pdf", "x"⟩] ++ ⟨"b.txt", "y"⟩ :: [⟨"c.pdf", "z"⟩]) sEmpty).2).pdf_metadata =
      sEmpty.pdf_metadata ++ (List.enumFrom 0 [⟨"a.pdf", "x"⟩]).map (metaRow uuid0 "now") ∧
    ((upload_pdf uuid0 "now" ([⟨"a.pdf", "x"⟩] ++ ⟨"b.txt", "y"⟩ :: [⟨"c.pdf", "z"⟩]) sEmpty).2).uploadsDisk =
      sEmpty.uploadsDisk ++ (List.enumFrom 0 [⟨"a.pdf", "x"⟩]).map (uploadEntry uuid0) ∧
    ((upload_pdf uuid0 "now" ([⟨"a.pdf", "x"⟩] ++ ⟨"b.txt", "y"⟩ :: [⟨"c.pdf", "z"⟩]) sEmpty).2).scheduled =
      sEmpty.scheduled ++ (List.enumFrom 0 [⟨"a.pdf", "x"⟩]).map (taskEntry uuid0) ∧
    ((upload_pdf uuid0 "now" ([⟨"a.pdf", "x"⟩] ++ ⟨"b.txt", "y"⟩ :: [⟨"c.pdf", "z"⟩]) sEmpty).2).documents =
      sEmpty.documents :=
  upload_batch_nonatomic uuid0 "now" [⟨"a.pdf", "x"⟩] ⟨"b.txt", "y"⟩ [⟨"c.pdf", "z"⟩] sEmpty
    (by decide) (by decide) (fun _ _ => rfl) (fun _ _ => rfl)
    (fun i j _ _ hne => uuid0_inj i j hne)
